import Mathlib

/-!
Verification of the `image_wasm` display-image converters
(`src/image_wasm/src/lib.rs`).

The Rust code converts raw sample buffers (u8/u16/u32 samples, 1 or 3
channels) into RGBA byte buffers by a per-value LUT lookup with fallback 0.

Embedding notes:
* Buffers are `List Nat` (samples and bytes as natural numbers; the u8/u16/u32
  variants differ in Rust only in the input element type, which is widened
  value-preservingly with `as usize` before use, so all three bodies act on
  the numeric values identically).
* Rust slice indexing `data[i]` / `output[i] = v` panics when out of bounds;
  in the wasm host this traps, leaving all earlier writes to the caller's
  output memory visible.  We model a call as
  `Except (List Nat) (List Nat)`: `.ok out'` is normal completion with final
  buffer `out'`, `.error st` is a trap with the buffer in state `st` at the
  moment of the failing access.
* `lut.get(value).copied().unwrap_or(0)` is total and is embedded as
  `(lut[value]?).getD 0`.
-/

/-- The Rust LUT lookup with fallback: `lut.get(v).copied().unwrap_or(0)`. -/
def lutLookup (lut : List Nat) (v : Nat) : Nat :=
  (lut[v]?).getD 0

/-- A bounds-checked read `l[i]` of an input slice.  On out-of-bounds it
traps, carrying the current output-buffer state `st`. -/
def readAt (l : List Nat) (i : Nat) (st : List Nat) : Except (List Nat) Nat :=
  match l[i]? with
  | some v => .ok v
  | none => .error st

/-- A bounds-checked write `out[i] = v`.  On out-of-bounds it traps, carrying
the buffer state reached so far. -/
def writeAt (out : List Nat) (i v : Nat) : Except (List Nat) (List Nat) :=
  if i < out.length then .ok (out.set i v) else .error out

/-- Body of one loop iteration in the `channels == 1` arm:
read `value = data[idx]`, look it up, write the RGBA quadruplet at
`idx*4 .. idx*4+3`. -/
def monoPixel (data lut : List Nat) (idx : Nat) (output : List Nat) :
    Except (List Nat) (List Nat) :=
  let tgt_idx := idx * 4
  match readAt data idx output with
  | .error st => .error st
  | .ok value =>
    let display := lutLookup lut value
    match writeAt output tgt_idx display with
    | .error st => .error st
    | .ok o1 =>
      match writeAt o1 (tgt_idx + 1) display with
      | .error st => .error st
      | .ok o2 =>
        match writeAt o2 (tgt_idx + 2) display with
        | .error st => .error st
        | .ok o3 => writeAt o3 (tgt_idx + 3) 255

/-- Body of one loop iteration in the `channels == 3` arm:
read `data[idx*3 .. idx*3+2]`, look each up independently, write the RGBA
quadruplet at `idx*4 .. idx*4+3`. -/
def rgbPixel (data lut : List Nat) (idx : Nat) (output : List Nat) :
    Except (List Nat) (List Nat) :=
  let base := idx * 3
  let tgt_idx := idx * 4
  match readAt data base output with
  | .error st => .error st
  | .ok rv =>
    let r := lutLookup lut rv
    match readAt data (base + 1) output with
    | .error st => .error st
    | .ok gv =>
      let g := lutLookup lut gv
      match readAt data (base + 2) output with
      | .error st => .error st
      | .ok bv =>
        let b := lutLookup lut bv
        match writeAt output tgt_idx r with
        | .error st => .error st
        | .ok o1 =>
          match writeAt o1 (tgt_idx + 1) g with
          | .error st => .error st
          | .ok o2 =>
            match writeAt o2 (tgt_idx + 2) b with
            | .error st => .error st
            | .ok o3 => writeAt o3 (tgt_idx + 3) 255

/-- `for idx in i..i+n { step idx }`, threading the output buffer and
stopping at the first trap. -/
def runPixels (step : Nat → List Nat → Except (List Nat) (List Nat)) :
    Nat → Nat → List Nat → Except (List Nat) (List Nat)
  | _, 0, output => .ok output
  | i, Nat.succ n, output =>
    match step i output with
    | .error st => .error st
    | .ok o => runPixels step (i + 1) n o

/-- `generate_display_image_u8` from `src/image_wasm/src/lib.rs`: convert a
mono or RGB image (u8 input) to RGBA u8 output using a LUT. -/
def generate_display_image_u8 (data : List Nat) (width height : Nat)
    (lut : List Nat) (channels : Nat) (output : List Nat) :
    Except (List Nat) (List Nat) :=
  let pixel_count := width * height
  if channels = 1 then
    runPixels (monoPixel data lut) 0 pixel_count output
  else if channels = 3 then
    runPixels (rgbPixel data lut) 0 pixel_count output
  else .ok output

/-- `generate_display_image_u16` from `src/image_wasm/src/lib.rs`: convert a
mono or RGB image (u16 input) to RGBA u8 output using a LUT. -/
def generate_display_image_u16 (data : List Nat) (width height : Nat)
    (lut : List Nat) (channels : Nat) (output : List Nat) :
    Except (List Nat) (List Nat) :=
  let pixel_count := width * height
  if channels = 1 then
    runPixels (monoPixel data lut) 0 pixel_count output
  else if channels = 3 then
    runPixels (rgbPixel data lut) 0 pixel_count output
  else .ok output

/-- `generate_display_image_u32` from `src/image_wasm/src/lib.rs`: convert a
mono or RGB image (u32 input) to RGBA u8 output using a LUT. -/
def generate_display_image_u32 (data : List Nat) (width height : Nat)
    (lut : List Nat) (channels : Nat) (output : List Nat) :
    Except (List Nat) (List Nat) :=
  let pixel_count := width * height
  if channels = 1 then
    runPixels (monoPixel data lut) 0 pixel_count output
  else if channels = 3 then
    runPixels (rgbPixel data lut) 0 pixel_count output
  else .ok output

/-- The buffer observable after a call, whether it completed or trapped. -/
def outBuf : Except (List Nat) (List Nat) → List Nat
  | .ok o => o
  | .error o => o

/-- The byte a successful `channels == 1` call writes at output position `j`
(`j < 4 * pixel_count`): alpha 255 on `j % 4 = 3`, else the LUT-mapped mono
sample of pixel `j / 4`. -/
def monoByte (data lut : List Nat) (j : Nat) : Nat :=
  if j % 4 = 3 then 255 else lutLookup lut ((data[j / 4]?).getD 0)

/-- The byte a successful `channels == 3` call writes at output position `j`
(`j < 4 * pixel_count`): alpha 255 on `j % 4 = 3`, else the LUT-mapped sample
of channel `j % 4` of pixel `j / 4`. -/
def rgbByte (data lut : List Nat) (j : Nat) : Nat :=
  if j % 4 = 3 then 255 else lutLookup lut ((data[j / 4 * 3 + j % 4]?).getD 0)

-- Spec example 1: width=1,height=1,channels=1, sample=[5], LUT=[0,...,60].
example :
    generate_display_image_u8 [5] 1 1 [0, 10, 20, 30, 40, 50, 60] 1 [0, 0, 0, 0]
      = .ok [50, 50, 50, 255] := by rfl

-- Spec example 3: channels=3, samples=[1,2,3], LUT=[0,10,20,30].
example :
    generate_display_image_u16 [1, 2, 3] 1 1 [0, 10, 20, 30] 3 [0, 0, 0, 0]
      = .ok [10, 20, 30, 255] := by rfl

-- Spec example 2 (scaled down): fallback on out-of-range sample.
example :
    generate_display_image_u16 [300] 1 1 [1, 2, 9] 1 [7, 7, 7, 7]
      = .ok [0, 0, 0, 255] := by rfl

-- Unsupported channel count: no writes.
example :
    generate_display_image_u32 [1, 2] 2 1 [3] 7 [9, 9, 9, 9, 9, 9, 9, 9]
      = .ok [9, 9, 9, 9, 9, 9, 9, 9] := by rfl

-- A trap mid-pixel leaves the earlier writes visible.
example :
    generate_display_image_u8 [0] 1 1 [7] 1 [9, 9] = .error [7, 7] := by rfl

/-- `List.set` then `getElem?`, with both the hit and the miss case. -/
theorem getElem?_set_spec (l : List Nat) (i j v : Nat) :
    (l.set i v)[j]? = if i = j ∧ i < l.length then some v else l[j]? := by
  rw [List.getElem?_set]
  by_cases h1 : i = j
  · subst h1
    by_cases h2 : i < l.length
    · simp [h2]
    · simp [h2, List.getElem?_eq_none (Nat.le_of_not_lt h2)]
  · simp [h1]

/-- An in-bounds `readAt` returns the element. -/
theorem readAt_ok (l : List Nat) (i : Nat) (st : List Nat) (h : i < l.length) :
    readAt l i st = .ok l[i] := by
  unfold readAt
  rw [List.getElem?_eq_getElem h]

/-- An out-of-bounds `readAt` traps with the current state. -/
theorem readAt_err (l : List Nat) (i : Nat) (st : List Nat) (h : l.length ≤ i) :
    readAt l i st = .error st := by
  unfold readAt
  rw [List.getElem?_eq_none h]

/-- An in-bounds `writeAt` sets the element. -/
theorem writeAt_ok (out : List Nat) (i v : Nat) (h : i < out.length) :
    writeAt out i v = .ok (out.set i v) := by
  unfold writeAt
  rw [if_pos h]

/-- An out-of-bounds `writeAt` traps with the buffer unchanged. -/
theorem writeAt_err (out : List Nat) (i v : Nat) (h : out.length ≤ i) :
    writeAt out i v = .error out := by
  unfold writeAt
  rw [if_neg (by omega)]

/-- `monoByte` on a color position of pixel `i` is the LUT-mapped sample. -/
theorem monoByte_color (data lut : List Nat) (i m : Nat) (hm : m < 3)
    (hd : i < data.length) :
    monoByte data lut (i * 4 + m) = lutLookup lut data[i] := by
  have h1 : (i * 4 + m) % 4 = m := by omega
  have h2 : (i * 4 + m) / 4 = i := by omega
  unfold monoByte
  rw [h1, h2, if_neg (by omega), List.getElem?_eq_getElem hd]
  rfl

/-- `monoByte` on an alpha position is 255. -/
theorem monoByte_alpha (data lut : List Nat) (i : Nat) :
    monoByte data lut (i * 4 + 3) = 255 := by
  unfold monoByte
  rw [if_pos (by omega)]

/-- `rgbByte` on channel `m` of pixel `i` is the LUT-mapped sample
`data[i*3+m]`. -/
theorem rgbByte_color (data lut : List Nat) (i m : Nat) (hm : m < 3)
    (hd : i * 3 + m < data.length) :
    rgbByte data lut (i * 4 + m) = lutLookup lut data[i * 3 + m] := by
  have h1 : (i * 4 + m) % 4 = m := by omega
  have h2 : (i * 4 + m) / 4 = i := by omega
  unfold rgbByte
  rw [h1, h2, if_neg (by omega), List.getElem?_eq_getElem hd]
  rfl

/-- `rgbByte` on an alpha position is 255. -/
theorem rgbByte_alpha (data lut : List Nat) (i : Nat) :
    rgbByte data lut (i * 4 + 3) = 255 := by
  unfold rgbByte
  rw [if_pos (by omega)]

/-- A `channels == 1` loop iteration with both buffers large enough writes
the four RGBA bytes of pixel `i`. -/
theorem monoPixel_ok (data lut : List Nat) (i : Nat) (out : List Nat)
    (hd : i < data.length) (ho : i * 4 + 4 ≤ out.length) :
    monoPixel data lut i out =
      .ok ((((out.set (i * 4) (lutLookup lut data[i])).set (i * 4 + 1)
          (lutLookup lut data[i])).set (i * 4 + 2)
          (lutLookup lut data[i])).set (i * 4 + 3) 255) := by
  have h0 : i * 4 < out.length := by omega
  have h1 : i * 4 + 1 < out.length := by omega
  have h2 : i * 4 + 2 < out.length := by omega
  have h3 : i * 4 + 3 < out.length := by omega
  simp [monoPixel, readAt_ok data i out hd, writeAt_ok, List.length_set,
    h0, h1, h2, h3]

/-- Pointwise description of a successful `channels == 1` iteration: the four
positions of pixel `i` hold `monoByte`, the rest is untouched. -/
theorem monoPixel_ok_spec (data lut : List Nat) (i : Nat) (out : List Nat)
    (hd : i < data.length) (ho : i * 4 + 4 ≤ out.length) :
    ∃ out', monoPixel data lut i out = .ok out' ∧ out'.length = out.length ∧
      ∀ j : Nat, out'[j]? =
        if i * 4 ≤ j ∧ j < i * 4 + 4 then some (monoByte data lut j)
        else out[j]? := by
  refine ⟨_, monoPixel_ok data lut i out hd ho, by simp [List.length_set], ?_⟩
  intro j
  rw [getElem?_set_spec, getElem?_set_spec, getElem?_set_spec, getElem?_set_spec]
  simp only [List.length_set]
  by_cases hj : i * 4 ≤ j ∧ j < i * 4 + 4
  · rw [if_pos hj]
    have hc : j = i * 4 + 0 ∨ j = i * 4 + 1 ∨ j = i * 4 + 2 ∨ j = i * 4 + 3 := by
      omega
    rcases hc with h | h | h | h <;> subst h
    · rw [if_neg (by omega), if_neg (by omega), if_neg (by omega),
        if_pos ⟨by omega, by omega⟩, monoByte_color data lut i 0 (by omega) hd]
    · rw [if_neg (by omega), if_neg (by omega), if_pos ⟨by omega, by omega⟩,
        monoByte_color data lut i 1 (by omega) hd]
    · rw [if_neg (by omega), if_pos ⟨by omega, by omega⟩,
        monoByte_color data lut i 2 (by omega) hd]
    · rw [if_pos ⟨by omega, by omega⟩, monoByte_alpha]
  · rw [if_neg hj, if_neg (by omega), if_neg (by omega), if_neg (by omega),
      if_neg (by omega)]

/-- A `channels == 3` loop iteration with both buffers large enough writes
the four RGBA bytes of pixel `i`. -/
theorem rgbPixel_ok (data lut : List Nat) (i : Nat) (out : List Nat)
    (hd : i * 3 + 2 < data.length) (ho : i * 4 + 4 ≤ out.length) :
    rgbPixel data lut i out =
      .ok ((((out.set (i * 4) (lutLookup lut (data[i * 3]))).set (i * 4 + 1)
          (lutLookup lut (data[i * 3 + 1]))).set (i * 4 + 2)
          (lutLookup lut (data[i * 3 + 2]))).set (i * 4 + 3) 255) := by
  have h0 : i * 4 < out.length := by omega
  have h1 : i * 4 + 1 < out.length := by omega
  have h2 : i * 4 + 2 < out.length := by omega
  have h3 : i * 4 + 3 < out.length := by omega
  simp [rgbPixel, readAt_ok data (i * 3) out (by omega),
    readAt_ok data (i * 3 + 1) out (by omega),
    readAt_ok data (i * 3 + 2) out hd, writeAt_ok, List.length_set,
    h0, h1, h2, h3]

/-- Pointwise description of a successful `channels == 3` iteration: the four
positions of pixel `i` hold `rgbByte`, the rest is untouched. -/
theorem rgbPixel_ok_spec (data lut : List Nat) (i : Nat) (out : List Nat)
    (hd : i * 3 + 2 < data.length) (ho : i * 4 + 4 ≤ out.length) :
    ∃ out', rgbPixel data lut i out = .ok out' ∧ out'.length = out.length ∧
      ∀ j : Nat, out'[j]? =
        if i * 4 ≤ j ∧ j < i * 4 + 4 then some (rgbByte data lut j)
        else out[j]? := by
  refine ⟨_, rgbPixel_ok data lut i out hd ho, by simp [List.length_set], ?_⟩
  intro j
  rw [getElem?_set_spec, getElem?_set_spec, getElem?_set_spec, getElem?_set_spec]
  simp only [List.length_set]
  by_cases hj : i * 4 ≤ j ∧ j < i * 4 + 4
  · rw [if_pos hj]
    have hc : j = i * 4 + 0 ∨ j = i * 4 + 1 ∨ j = i * 4 + 2 ∨ j = i * 4 + 3 := by
      omega
    rcases hc with h | h | h | h <;> subst h
    · rw [if_neg (by omega), if_neg (by omega), if_neg (by omega),
        if_pos ⟨by omega, by omega⟩, rgbByte_color data lut i 0 (by omega) (by omega)]
      simp
    · rw [if_neg (by omega), if_neg (by omega), if_pos ⟨by omega, by omega⟩,
        rgbByte_color data lut i 1 (by omega) (by omega)]
    · rw [if_neg (by omega), if_pos ⟨by omega, by omega⟩,
        rgbByte_color data lut i 2 (by omega) (by omega)]
    · rw [if_pos ⟨by omega, by omega⟩, rgbByte_alpha]
  · rw [if_neg hj, if_neg (by omega), if_neg (by omega), if_neg (by omega),
      if_neg (by omega)]

/-- Unfolding: a `runPixels` step whose body succeeds continues the loop. -/
theorem runPixels_succ_ok (step : Nat → List Nat → Except (List Nat) (List Nat))
    (i n : Nat) (out o : List Nat) (h : step i out = .ok o) :
    runPixels step i (n + 1) out = runPixels step (i + 1) n o := by
  show (match step i out with
    | .error st => .error st
    | .ok o => runPixels step (i + 1) n o) = runPixels step (i + 1) n o
  rw [h]

/-- Unfolding: a `runPixels` step whose body traps stops the loop. -/
theorem runPixels_succ_err (step : Nat → List Nat → Except (List Nat) (List Nat))
    (i n : Nat) (out st : List Nat) (h : step i out = .error st) :
    runPixels step i (n + 1) out = .error st := by
  show (match step i out with
    | .error st => .error st
    | .ok o => runPixels step (i + 1) n o) =
    (Except.error st : Except (List Nat) (List Nat))
  rw [h]

/-- Main loop invariant, success case: if each iteration `k` writes exactly
`byteF` on positions `[k*4, k*4+4)` (given `P k` and room in the buffer),
then the whole loop over `[i, i+n)` succeeds and writes exactly `byteF` on
`[4*i, 4*(i+n))`, touching nothing else. -/
theorem runPixels_ok_spec (step : Nat → List Nat → Except (List Nat) (List Nat))
    (P : Nat → Prop) (byteF : Nat → Nat)
    (hstep : ∀ i out, P i → i * 4 + 4 ≤ out.length →
      ∃ out', step i out = .ok out' ∧ out'.length = out.length ∧
        ∀ j : Nat, out'[j]? =
          if i * 4 ≤ j ∧ j < i * 4 + 4 then some (byteF j) else out[j]?) :
    ∀ (n i : Nat) (out : List Nat), (∀ k, i ≤ k → k < i + n → P k) →
      4 * (i + n) ≤ out.length →
      ∃ out', runPixels step i n out = .ok out' ∧ out'.length = out.length ∧
        ∀ j : Nat, out'[j]? =
          if 4 * i ≤ j ∧ j < 4 * (i + n) then some (byteF j) else out[j]? := by
  intro n
  induction n with
  | zero =>
    intro i out _ _
    exact ⟨out, rfl, rfl, fun j => by rw [if_neg (by omega)]⟩
  | succ n IH =>
    intro i out hA hlen
    obtain ⟨o1, e1, len1, spec1⟩ :=
      hstep i out (hA i (Nat.le_refl i) (by omega)) (by omega)
    obtain ⟨out', e2, len2, spec2⟩ :=
      IH (i + 1) o1 (fun k hk1 hk2 => hA k (by omega) (by omega)) (by omega)
    refine ⟨out', by rw [runPixels_succ_ok step i n out o1 e1, e2],
      len2.trans len1, ?_⟩
    intro j
    rw [spec2 j]
    by_cases h2 : 4 * (i + 1) ≤ j ∧ j < 4 * (i + 1 + n)
    · rw [if_pos h2, if_pos (by omega)]
    · rw [if_neg h2, spec1 j]
      by_cases h3 : i * 4 ≤ j ∧ j < i * 4 + 4
      · rw [if_pos h3, if_pos (by omega)]
      · rw [if_neg h3, if_neg (by omega)]

/-- A `channels == 1` iteration with a readable sample but an output buffer
ending inside pixel `i` traps at the first out-of-bounds write, leaving every
existing position of the pixel already written. -/
theorem monoPixel_err_spec (data lut : List Nat) (i : Nat) (out : List Nat)
    (hd : i < data.length) (hlo : i * 4 ≤ out.length)
    (hhi : out.length < i * 4 + 4) :
    ∃ st, monoPixel data lut i out = .error st ∧ st.length = out.length ∧
      ∀ j : Nat, st[j]? =
        if i * 4 ≤ j ∧ j < out.length then some (monoByte data lut j)
        else out[j]? := by
  have hr := readAt_ok data i out hd
  have hc : out.length = i * 4 ∨ out.length = i * 4 + 1 ∨
      out.length = i * 4 + 2 ∨ out.length = i * 4 + 3 := by omega
  rcases hc with h | h | h | h
  · have w0 : writeAt out (i * 4) (lutLookup lut data[i]) = .error out :=
      writeAt_err _ _ _ (by omega)
    refine ⟨out, by simp [monoPixel, hr, w0], rfl, ?_⟩
    intro j
    rw [if_neg (by omega)]
  · have w0 : writeAt out (i * 4) (lutLookup lut data[i]) =
        .ok (out.set (i * 4) (lutLookup lut data[i])) :=
      writeAt_ok _ _ _ (by omega)
    have w1 : writeAt (out.set (i * 4) (lutLookup lut data[i])) (i * 4 + 1)
        (lutLookup lut data[i]) = .error (out.set (i * 4) (lutLookup lut data[i])) :=
      writeAt_err _ _ _ (by rw [List.length_set]; omega)
    refine ⟨out.set (i * 4) (lutLookup lut data[i]),
      by simp [monoPixel, hr, w0, w1], by rw [List.length_set], ?_⟩
    intro j
    rw [getElem?_set_spec]
    by_cases hj : i * 4 ≤ j ∧ j < out.length
    · have hj0 : j = i * 4 + 0 := by omega
      subst hj0
      rw [if_pos ⟨by omega, by omega⟩, if_pos (by omega),
        monoByte_color data lut i 0 (by omega) hd]
    · rw [if_neg (by omega), if_neg hj]
  · have w0 : writeAt out (i * 4) (lutLookup lut data[i]) =
        .ok (out.set (i * 4) (lutLookup lut data[i])) :=
      writeAt_ok _ _ _ (by omega)
    have w1 : writeAt (out.set (i * 4) (lutLookup lut data[i])) (i * 4 + 1)
        (lutLookup lut data[i]) =
        .ok ((out.set (i * 4) (lutLookup lut data[i])).set (i * 4 + 1)
          (lutLookup lut data[i])) :=
      writeAt_ok _ _ _ (by rw [List.length_set]; omega)
    have w2 : writeAt ((out.set (i * 4) (lutLookup lut data[i])).set (i * 4 + 1)
        (lutLookup lut data[i])) (i * 4 + 2) (lutLookup lut data[i]) =
        .error ((out.set (i * 4) (lutLookup lut data[i])).set (i * 4 + 1)
          (lutLookup lut data[i])) :=
      writeAt_err _ _ _ (by rw [List.length_set, List.length_set]; omega)
    refine ⟨(out.set (i * 4) (lutLookup lut data[i])).set (i * 4 + 1)
        (lutLookup lut data[i]),
      by simp [monoPixel, hr, w0, w1, w2],
      by rw [List.length_set, List.length_set], ?_⟩
    intro j
    rw [getElem?_set_spec, getElem?_set_spec]
    simp only [List.length_set]
    by_cases hj : i * 4 ≤ j ∧ j < out.length
    · have hj01 : j = i * 4 + 0 ∨ j = i * 4 + 1 := by omega
      rcases hj01 with hj0 | hj0 <;> subst hj0
      · rw [if_neg (by omega), if_pos ⟨by omega, by omega⟩, if_pos (by omega),
          monoByte_color data lut i 0 (by omega) hd]
      · rw [if_pos ⟨by omega, by omega⟩, if_pos (by omega),
          monoByte_color data lut i 1 (by omega) hd]
    · rw [if_neg (by omega), if_neg (by omega), if_neg hj]
  · have w0 : writeAt out (i * 4) (lutLookup lut data[i]) =
        .ok (out.set (i * 4) (lutLookup lut data[i])) :=
      writeAt_ok _ _ _ (by omega)
    have w1 : writeAt (out.set (i * 4) (lutLookup lut data[i])) (i * 4 + 1)
        (lutLookup lut data[i]) =
        .ok ((out.set (i * 4) (lutLookup lut data[i])).set (i * 4 + 1)
          (lutLookup lut data[i])) :=
      writeAt_ok _ _ _ (by rw [List.length_set]; omega)
    have w2 : writeAt ((out.set (i * 4) (lutLookup lut data[i])).set (i * 4 + 1)
        (lutLookup lut data[i])) (i * 4 + 2) (lutLookup lut data[i]) =
        .ok (((out.set (i * 4) (lutLookup lut data[i])).set (i * 4 + 1)
          (lutLookup lut data[i])).set (i * 4 + 2) (lutLookup lut data[i])) :=
      writeAt_ok _ _ _ (by rw [List.length_set, List.length_set]; omega)
    have w3 : writeAt (((out.set (i * 4) (lutLookup lut data[i])).set (i * 4 + 1)
        (lutLookup lut data[i])).set (i * 4 + 2) (lutLookup lut data[i]))
        (i * 4 + 3) 255 =
        .error (((out.set (i * 4) (lutLookup lut data[i])).set (i * 4 + 1)
          (lutLookup lut data[i])).set (i * 4 + 2) (lutLookup lut data[i])) :=
      writeAt_err _ _ _ (by rw [List.length_set, List.length_set, List.length_set]; omega)
    refine ⟨((out.set (i * 4) (lutLookup lut data[i])).set (i * 4 + 1)
        (lutLookup lut data[i])).set (i * 4 + 2) (lutLookup lut data[i]),
      by simp [monoPixel, hr, w0, w1, w2, w3],
      by rw [List.length_set, List.length_set, List.length_set], ?_⟩
    intro j
    rw [getElem?_set_spec, getElem?_set_spec, getElem?_set_spec]
    simp only [List.length_set]
    by_cases hj : i * 4 ≤ j ∧ j < out.length
    · have hj01 : j = i * 4 + 0 ∨ j = i * 4 + 1 ∨ j = i * 4 + 2 := by omega
      rcases hj01 with hj0 | hj0 | hj0 <;> subst hj0
      · rw [if_neg (by omega), if_neg (by omega), if_pos ⟨by omega, by omega⟩,
          if_pos (by omega), monoByte_color data lut i 0 (by omega) hd]
      · rw [if_neg (by omega), if_pos ⟨by omega, by omega⟩, if_pos (by omega),
          monoByte_color data lut i 1 (by omega) hd]
      · rw [if_pos ⟨by omega, by omega⟩, if_pos (by omega),
          monoByte_color data lut i 2 (by omega) hd]
    · rw [if_neg (by omega), if_neg (by omega), if_neg (by omega), if_neg hj]

/-- A `channels == 3` iteration with readable samples but an output buffer
ending inside pixel `i` traps at the first out-of-bounds write, leaving every
existing position of the pixel already written. -/
theorem rgbPixel_err_spec (data lut : List Nat) (i : Nat) (out : List Nat)
    (hd : i * 3 + 2 < data.length) (hlo : i * 4 ≤ out.length)
    (hhi : out.length < i * 4 + 4) :
    ∃ st, rgbPixel data lut i out = .error st ∧ st.length = out.length ∧
      ∀ j : Nat, st[j]? =
        if i * 4 ≤ j ∧ j < out.length then some (rgbByte data lut j)
        else out[j]? := by
  have hr0 := readAt_ok data (i * 3) out (by omega)
  have hr1 := readAt_ok data (i * 3 + 1) out (by omega)
  have hr2 := readAt_ok data (i * 3 + 2) out hd
  have hc : out.length = i * 4 ∨ out.length = i * 4 + 1 ∨
      out.length = i * 4 + 2 ∨ out.length = i * 4 + 3 := by omega
  rcases hc with h | h | h | h
  · have w0 : writeAt out (i * 4) (lutLookup lut (data[i * 3])) = .error out :=
      writeAt_err _ _ _ (by omega)
    refine ⟨out, by simp [rgbPixel, hr0, hr1, hr2, w0], rfl, ?_⟩
    intro j
    rw [if_neg (by omega)]
  · have w0 : writeAt out (i * 4) (lutLookup lut (data[i * 3])) =
        .ok (out.set (i * 4) (lutLookup lut (data[i * 3]))) :=
      writeAt_ok _ _ _ (by omega)
    have w1 : writeAt (out.set (i * 4) (lutLookup lut (data[i * 3]))) (i * 4 + 1)
        (lutLookup lut (data[i * 3 + 1])) =
        .error (out.set (i * 4) (lutLookup lut (data[i * 3]))) :=
      writeAt_err _ _ _ (by rw [List.length_set]; omega)
    refine ⟨out.set (i * 4) (lutLookup lut (data[i * 3])),
      by simp [rgbPixel, hr0, hr1, hr2, w0, w1], by rw [List.length_set], ?_⟩
    intro j
    rw [getElem?_set_spec]
    by_cases hj : i * 4 ≤ j ∧ j < out.length
    · have hj0 : j = i * 4 + 0 := by omega
      subst hj0
      rw [if_pos ⟨by omega, by omega⟩, if_pos (by omega),
        rgbByte_color data lut i 0 (by omega) (by omega)]
      simp
    · rw [if_neg (by omega), if_neg hj]
  · have w0 : writeAt out (i * 4) (lutLookup lut (data[i * 3])) =
        .ok (out.set (i * 4) (lutLookup lut (data[i * 3]))) :=
      writeAt_ok _ _ _ (by omega)
    have w1 : writeAt (out.set (i * 4) (lutLookup lut (data[i * 3]))) (i * 4 + 1)
        (lutLookup lut (data[i * 3 + 1])) =
        .ok ((out.set (i * 4) (lutLookup lut (data[i * 3]))).set (i * 4 + 1)
          (lutLookup lut (data[i * 3 + 1]))) :=
      writeAt_ok _ _ _ (by rw [List.length_set]; omega)
    have w2 : writeAt ((out.set (i * 4) (lutLookup lut (data[i * 3]))).set (i * 4 + 1)
        (lutLookup lut (data[i * 3 + 1]))) (i * 4 + 2)
        (lutLookup lut (data[i * 3 + 2])) =
        .error ((out.set (i * 4) (lutLookup lut (data[i * 3]))).set (i * 4 + 1)
          (lutLookup lut (data[i * 3 + 1]))) :=
      writeAt_err _ _ _ (by rw [List.length_set, List.length_set]; omega)
    refine ⟨(out.set (i * 4) (lutLookup lut (data[i * 3]))).set (i * 4 + 1)
        (lutLookup lut (data[i * 3 + 1])),
      by simp [rgbPixel, hr0, hr1, hr2, w0, w1, w2],
      by rw [List.length_set, List.length_set], ?_⟩
    intro j
    rw [getElem?_set_spec, getElem?_set_spec]
    simp only [List.length_set]
    by_cases hj : i * 4 ≤ j ∧ j < out.length
    · have hj01 : j = i * 4 + 0 ∨ j = i * 4 + 1 := by omega
      rcases hj01 with hj0 | hj0 <;> subst hj0
      · rw [if_neg (by omega), if_pos ⟨by omega, by omega⟩, if_pos (by omega),
          rgbByte_color data lut i 0 (by omega) (by omega)]
        simp
      · rw [if_pos ⟨by omega, by omega⟩, if_pos (by omega),
          rgbByte_color data lut i 1 (by omega) (by omega)]
    · rw [if_neg (by omega), if_neg (by omega), if_neg hj]
  · have w0 : writeAt out (i * 4) (lutLookup lut (data[i * 3])) =
        .ok (out.set (i * 4) (lutLookup lut (data[i * 3]))) :=
      writeAt_ok _ _ _ (by omega)
    have w1 : writeAt (out.set (i * 4) (lutLookup lut (data[i * 3]))) (i * 4 + 1)
        (lutLookup lut (data[i * 3 + 1])) =
        .ok ((out.set (i * 4) (lutLookup lut (data[i * 3]))).set (i * 4 + 1)
          (lutLookup lut (data[i * 3 + 1]))) :=
      writeAt_ok _ _ _ (by rw [List.length_set]; omega)
    have w2 : writeAt ((out.set (i * 4) (lutLookup lut (data[i * 3]))).set (i * 4 + 1)
        (lutLookup lut (data[i * 3 + 1]))) (i * 4 + 2)
        (lutLookup lut (data[i * 3 + 2])) =
        .ok (((out.set (i * 4) (lutLookup lut (data[i * 3]))).set (i * 4 + 1)
          (lutLookup lut (data[i * 3 + 1]))).set (i * 4 + 2)
          (lutLookup lut (data[i * 3 + 2]))) :=
      writeAt_ok _ _ _ (by rw [List.length_set, List.length_set]; omega)
    have w3 : writeAt (((out.set (i * 4) (lutLookup lut (data[i * 3]))).set (i * 4 + 1)
        (lutLookup lut (data[i * 3 + 1]))).set (i * 4 + 2)
        (lutLookup lut (data[i * 3 + 2]))) (i * 4 + 3) 255 =
        .error (((out.set (i * 4) (lutLookup lut (data[i * 3]))).set (i * 4 + 1)
          (lutLookup lut (data[i * 3 + 1]))).set (i * 4 + 2)
          (lutLookup lut (data[i * 3 + 2]))) :=
      writeAt_err _ _ _ (by rw [List.length_set, List.length_set, List.length_set]; omega)
    refine ⟨((out.set (i * 4) (lutLookup lut (data[i * 3]))).set (i * 4 + 1)
        (lutLookup lut (data[i * 3 + 1]))).set (i * 4 + 2)
        (lutLookup lut (data[i * 3 + 2])),
      by simp [rgbPixel, hr0, hr1, hr2, w0, w1, w2, w3],
      by rw [List.length_set, List.length_set, List.length_set], ?_⟩
    intro j
    rw [getElem?_set_spec, getElem?_set_spec, getElem?_set_spec]
    simp only [List.length_set]
    by_cases hj : i * 4 ≤ j ∧ j < out.length
    · have hj01 : j = i * 4 + 0 ∨ j = i * 4 + 1 ∨ j = i * 4 + 2 := by omega
      rcases hj01 with hj0 | hj0 | hj0 <;> subst hj0
      · rw [if_neg (by omega), if_neg (by omega), if_pos ⟨by omega, by omega⟩,
          if_pos (by omega), rgbByte_color data lut i 0 (by omega) (by omega)]
        simp
      · rw [if_neg (by omega), if_pos ⟨by omega, by omega⟩, if_pos (by omega),
          rgbByte_color data lut i 1 (by omega) (by omega)]
      · rw [if_pos ⟨by omega, by omega⟩, if_pos (by omega),
          rgbByte_color data lut i 2 (by omega) (by omega)]
    · rw [if_neg (by omega), if_neg (by omega), if_neg (by omega), if_neg hj]

/-- Main loop invariant, trap case: with enough input but an output buffer
shorter than `4*(i+n)` bytes, the loop traps at the first out-of-bounds
write, having first filled every existing position from `4*i` on with the
per-position byte function. -/
theorem runPixels_err_spec (step : Nat → List Nat → Except (List Nat) (List Nat))
    (P : Nat → Prop) (byteF : Nat → Nat)
    (hstep_ok : ∀ i out, P i → i * 4 + 4 ≤ out.length →
      ∃ out', step i out = .ok out' ∧ out'.length = out.length ∧
        ∀ j : Nat, out'[j]? =
          if i * 4 ≤ j ∧ j < i * 4 + 4 then some (byteF j) else out[j]?)
    (hstep_err : ∀ i out, P i → i * 4 ≤ out.length → out.length < i * 4 + 4 →
      ∃ st, step i out = .error st ∧ st.length = out.length ∧
        ∀ j : Nat, st[j]? =
          if i * 4 ≤ j ∧ j < out.length then some (byteF j) else out[j]?) :
    ∀ (n i : Nat) (out : List Nat), (∀ k, i ≤ k → k < i + n → P k) →
      4 * i ≤ out.length → out.length < 4 * (i + n) →
      ∃ st, runPixels step i n out = .error st ∧ st.length = out.length ∧
        ∀ j : Nat, st[j]? =
          if 4 * i ≤ j ∧ j < out.length then some (byteF j) else out[j]? := by
  intro n
  induction n with
  | zero =>
    intro i out _ h1 h2
    exact absurd h2 (by omega)
  | succ n IH =>
    intro i out hA hlo hhi
    by_cases hcase : i * 4 + 4 ≤ out.length
    · obtain ⟨o1, e1, len1, spec1⟩ :=
        hstep_ok i out (hA i (Nat.le_refl i) (by omega)) hcase
      obtain ⟨st, e2, len2, spec2⟩ :=
        IH (i + 1) o1 (fun k hk1 hk2 => hA k (by omega) (by omega))
          (by omega) (by omega)
      rw [len1] at spec2
      refine ⟨st, by rw [runPixels_succ_ok step i n out o1 e1, e2],
        len2.trans len1, ?_⟩
      intro j
      rw [spec2 j]
      by_cases h2 : 4 * (i + 1) ≤ j ∧ j < out.length
      · rw [if_pos h2, if_pos (by omega)]
      · rw [if_neg h2, spec1 j]
        by_cases h3 : i * 4 ≤ j ∧ j < i * 4 + 4
        · rw [if_pos h3, if_pos (by omega)]
        · rw [if_neg h3, if_neg (by omega)]
    · obtain ⟨st, e1, len1, spec1⟩ :=
        hstep_err i out (hA i (Nat.le_refl i) (by omega)) (by omega) (by omega)
      refine ⟨st, by rw [runPixels_succ_err step i n out st e1], len1, ?_⟩
      intro j
      rw [spec1 j]
      by_cases hj : i * 4 ≤ j ∧ j < out.length
      · rw [if_pos hj, if_pos (by omega)]
      · rw [if_neg hj, if_neg (by omega)]

/-- Frame property of one `channels == 1` iteration: whatever happens
(success or trap), the buffer keeps its length and every position outside
`[i*4, i*4+4)` keeps its byte. -/
theorem monoPixel_frame (data lut : List Nat) (i : Nat) (out : List Nat) :
    (outBuf (monoPixel data lut i out)).length = out.length ∧
    ∀ j : Nat, j < i * 4 ∨ i * 4 + 4 ≤ j →
      (outBuf (monoPixel data lut i out))[j]? = out[j]? := by
  rcases hr : data[i]? with _ | v
  · have hra : readAt data i out = .error out := by
      unfold readAt
      rw [hr]
    simp [monoPixel, hra, outBuf]
  · have hra : readAt data i out = .ok v := by
      unfold readAt
      rw [hr]
    by_cases h0 : i * 4 < out.length
    · have w0 : writeAt out (i * 4) (lutLookup lut v) =
          .ok (out.set (i * 4) (lutLookup lut v)) := writeAt_ok _ _ _ h0
      by_cases h1 : i * 4 + 1 < out.length
      · have w1 : writeAt (out.set (i * 4) (lutLookup lut v)) (i * 4 + 1)
            (lutLookup lut v) =
            .ok ((out.set (i * 4) (lutLookup lut v)).set (i * 4 + 1)
              (lutLookup lut v)) :=
          writeAt_ok _ _ _ (by rw [List.length_set]; omega)
        by_cases h2 : i * 4 + 2 < out.length
        · have w2 : writeAt ((out.set (i * 4) (lutLookup lut v)).set (i * 4 + 1)
              (lutLookup lut v)) (i * 4 + 2) (lutLookup lut v) =
              .ok (((out.set (i * 4) (lutLookup lut v)).set (i * 4 + 1)
                (lutLookup lut v)).set (i * 4 + 2) (lutLookup lut v)) :=
            writeAt_ok _ _ _ (by rw [List.length_set, List.length_set]; omega)
          by_cases h3 : i * 4 + 3 < out.length
          · have w3 : writeAt (((out.set (i * 4) (lutLookup lut v)).set (i * 4 + 1)
                (lutLookup lut v)).set (i * 4 + 2) (lutLookup lut v))
                (i * 4 + 3) 255 =
                .ok ((((out.set (i * 4) (lutLookup lut v)).set (i * 4 + 1)
                  (lutLookup lut v)).set (i * 4 + 2) (lutLookup lut v)).set
                  (i * 4 + 3) 255) :=
              writeAt_ok _ _ _
                (by rw [List.length_set, List.length_set, List.length_set]; omega)
            simp only [monoPixel, hra, w0, w1, w2, w3, outBuf]
            refine ⟨by simp [List.length_set], fun j hj => ?_⟩
            rw [getElem?_set_spec, getElem?_set_spec, getElem?_set_spec,
              getElem?_set_spec, if_neg (by omega), if_neg (by omega),
              if_neg (by omega), if_neg (by omega)]
          · have w3 : writeAt (((out.set (i * 4) (lutLookup lut v)).set (i * 4 + 1)
                (lutLookup lut v)).set (i * 4 + 2) (lutLookup lut v))
                (i * 4 + 3) 255 =
                .error (((out.set (i * 4) (lutLookup lut v)).set (i * 4 + 1)
                  (lutLookup lut v)).set (i * 4 + 2) (lutLookup lut v)) :=
              writeAt_err _ _ _
                (by rw [List.length_set, List.length_set, List.length_set]; omega)
            simp only [monoPixel, hra, w0, w1, w2, w3, outBuf]
            refine ⟨by simp [List.length_set], fun j hj => ?_⟩
            rw [getElem?_set_spec, getElem?_set_spec, getElem?_set_spec,
              if_neg (by omega), if_neg (by omega), if_neg (by omega)]
        · have w2 : writeAt ((out.set (i * 4) (lutLookup lut v)).set (i * 4 + 1)
              (lutLookup lut v)) (i * 4 + 2) (lutLookup lut v) =
              .error ((out.set (i * 4) (lutLookup lut v)).set (i * 4 + 1)
                (lutLookup lut v)) :=
            writeAt_err _ _ _ (by rw [List.length_set, List.length_set]; omega)
          simp only [monoPixel, hra, w0, w1, w2, outBuf]
          refine ⟨by simp [List.length_set], fun j hj => ?_⟩
          rw [getElem?_set_spec, getElem?_set_spec, if_neg (by omega),
            if_neg (by omega)]
      · have w1 : writeAt (out.set (i * 4) (lutLookup lut v)) (i * 4 + 1)
            (lutLookup lut v) = .error (out.set (i * 4) (lutLookup lut v)) :=
          writeAt_err _ _ _ (by rw [List.length_set]; omega)
        simp only [monoPixel, hra, w0, w1, outBuf]
        refine ⟨by simp [List.length_set], fun j hj => ?_⟩
        rw [getElem?_set_spec, if_neg (by omega)]
    · have w0 : writeAt out (i * 4) (lutLookup lut v) = .error out :=
        writeAt_err _ _ _ (by omega)
      simp only [monoPixel, hra, w0, outBuf]
      exact ⟨trivial, fun j hj => trivial⟩

/-- Frame property of one `channels == 3` iteration: whatever happens
(success or trap), the buffer keeps its length and every position outside
`[i*4, i*4+4)` keeps its byte. -/
theorem rgbPixel_frame (data lut : List Nat) (i : Nat) (out : List Nat) :
    (outBuf (rgbPixel data lut i out)).length = out.length ∧
    ∀ j : Nat, j < i * 4 ∨ i * 4 + 4 ≤ j →
      (outBuf (rgbPixel data lut i out))[j]? = out[j]? := by
  rcases hr0 : data[i * 3]? with _ | rv
  · have hra : readAt data (i * 3) out = .error out := by
      unfold readAt
      rw [hr0]
    simp [rgbPixel, hra, outBuf]
  · have hra0 : readAt data (i * 3) out = .ok rv := by
      unfold readAt
      rw [hr0]
    rcases hr1 : data[i * 3 + 1]? with _ | gv
    · have hra1 : readAt data (i * 3 + 1) out = .error out := by
        unfold readAt
        rw [hr1]
      simp [rgbPixel, hra0, hra1, outBuf]
    · have hra1 : readAt data (i * 3 + 1) out = .ok gv := by
        unfold readAt
        rw [hr1]
      rcases hr2 : data[i * 3 + 2]? with _ | bv
      · have hra2 : readAt data (i * 3 + 2) out = .error out := by
          unfold readAt
          rw [hr2]
        simp [rgbPixel, hra0, hra1, hra2, outBuf]
      · have hra2 : readAt data (i * 3 + 2) out = .ok bv := by
          unfold readAt
          rw [hr2]
        by_cases h0 : i * 4 < out.length
        · have w0 : writeAt out (i * 4) (lutLookup lut rv) =
              .ok (out.set (i * 4) (lutLookup lut rv)) := writeAt_ok _ _ _ h0
          by_cases h1 : i * 4 + 1 < out.length
          · have w1 : writeAt (out.set (i * 4) (lutLookup lut rv)) (i * 4 + 1)
                (lutLookup lut gv) =
                .ok ((out.set (i * 4) (lutLookup lut rv)).set (i * 4 + 1)
                  (lutLookup lut gv)) :=
              writeAt_ok _ _ _ (by rw [List.length_set]; omega)
            by_cases h2 : i * 4 + 2 < out.length
            · have w2 : writeAt ((out.set (i * 4) (lutLookup lut rv)).set (i * 4 + 1)
                  (lutLookup lut gv)) (i * 4 + 2) (lutLookup lut bv) =
                  .ok (((out.set (i * 4) (lutLookup lut rv)).set (i * 4 + 1)
                    (lutLookup lut gv)).set (i * 4 + 2) (lutLookup lut bv)) :=
                writeAt_ok _ _ _ (by rw [List.length_set, List.length_set]; omega)
              by_cases h3 : i * 4 + 3 < out.length
              · have w3 : writeAt (((out.set (i * 4) (lutLookup lut rv)).set
                    (i * 4 + 1) (lutLookup lut gv)).set (i * 4 + 2)
                    (lutLookup lut bv)) (i * 4 + 3) 255 =
                    .ok ((((out.set (i * 4) (lutLookup lut rv)).set (i * 4 + 1)
                      (lutLookup lut gv)).set (i * 4 + 2) (lutLookup lut bv)).set
                      (i * 4 + 3) 255) :=
                  writeAt_ok _ _ _
                    (by rw [List.length_set, List.length_set, List.length_set]; omega)
                simp only [rgbPixel, hra0, hra1, hra2, w0, w1, w2, w3, outBuf]
                refine ⟨by simp [List.length_set], fun j hj => ?_⟩
                rw [getElem?_set_spec, getElem?_set_spec, getElem?_set_spec,
                  getElem?_set_spec, if_neg (by omega), if_neg (by omega),
                  if_neg (by omega), if_neg (by omega)]
              · have w3 : writeAt (((out.set (i * 4) (lutLookup lut rv)).set
                    (i * 4 + 1) (lutLookup lut gv)).set (i * 4 + 2)
                    (lutLookup lut bv)) (i * 4 + 3) 255 =
                    .error (((out.set (i * 4) (lutLookup lut rv)).set (i * 4 + 1)
                      (lutLookup lut gv)).set (i * 4 + 2) (lutLookup lut bv)) :=
                  writeAt_err _ _ _
                    (by rw [List.length_set, List.length_set, List.length_set]; omega)
                simp only [rgbPixel, hra0, hra1, hra2, w0, w1, w2, w3, outBuf]
                refine ⟨by simp [List.length_set], fun j hj => ?_⟩
                rw [getElem?_set_spec, getElem?_set_spec, getElem?_set_spec,
                  if_neg (by omega), if_neg (by omega), if_neg (by omega)]
            · have w2 : writeAt ((out.set (i * 4) (lutLookup lut rv)).set (i * 4 + 1)
                  (lutLookup lut gv)) (i * 4 + 2) (lutLookup lut bv) =
                  .error ((out.set (i * 4) (lutLookup lut rv)).set (i * 4 + 1)
                    (lutLookup lut gv)) :=
                writeAt_err _ _ _ (by rw [List.length_set, List.length_set]; omega)
              simp only [rgbPixel, hra0, hra1, hra2, w0, w1, w2, outBuf]
              refine ⟨by simp [List.length_set], fun j hj => ?_⟩
              rw [getElem?_set_spec, getElem?_set_spec, if_neg (by omega),
                if_neg (by omega)]
          · have w1 : writeAt (out.set (i * 4) (lutLookup lut rv)) (i * 4 + 1)
                (lutLookup lut gv) = .error (out.set (i * 4) (lutLookup lut rv)) :=
              writeAt_err _ _ _ (by rw [List.length_set]; omega)
            simp only [rgbPixel, hra0, hra1, hra2, w0, w1, outBuf]
            refine ⟨by simp [List.length_set], fun j hj => ?_⟩
            rw [getElem?_set_spec, if_neg (by omega)]
        · have w0 : writeAt out (i * 4) (lutLookup lut rv) = .error out :=
            writeAt_err _ _ _ (by omega)
          simp only [rgbPixel, hra0, hra1, hra2, w0, outBuf]
          exact ⟨trivial, fun j hj => trivial⟩

/-- Frame property of the whole loop: given a per-iteration frame property,
the loop over `[i, i+n)` preserves the buffer length and every byte outside
`[4*i, 4*(i+n))`, whether it completes or traps. -/
theorem runPixels_frame (step : Nat → List Nat → Except (List Nat) (List Nat))
    (hstep : ∀ i out, (outBuf (step i out)).length = out.length ∧
      ∀ j : Nat, j < i * 4 ∨ i * 4 + 4 ≤ j →
        (outBuf (step i out))[j]? = out[j]?) :
    ∀ (n i : Nat) (out : List Nat),
      (outBuf (runPixels step i n out)).length = out.length ∧
      ∀ j : Nat, j < 4 * i ∨ 4 * (i + n) ≤ j →
        (outBuf (runPixels step i n out))[j]? = out[j]? := by
  intro n
  induction n with
  | zero => exact fun i out => ⟨rfl, fun j hj => rfl⟩
  | succ n IH =>
    intro i out
    rcases hs : step i out with st | o
    · have hst : outBuf (step i out) = st := by rw [hs]; rfl
      obtain ⟨hlen, hframe⟩ := hstep i out
      rw [hst] at hlen hframe
      rw [runPixels_succ_err step i n out st hs]
      exact ⟨hlen, fun j hj => hframe j (by omega)⟩
    · have hst : outBuf (step i out) = o := by rw [hs]; rfl
      obtain ⟨hlen, hframe⟩ := hstep i out
      rw [hst] at hlen hframe
      obtain ⟨hlen2, hframe2⟩ := IH (i + 1) o
      rw [runPixels_succ_ok step i n out o hs]
      refine ⟨hlen2.trans hlen, fun j hj => ?_⟩
      rw [hframe2 j (by omega), hframe j (by omega)]

/-- In-range LUT lookup returns the entry. -/
theorem lutLookup_lt (lut : List Nat) (v : Nat) (h : v < lut.length) :
    lutLookup lut v = lut[v] := by
  unfold lutLookup
  rw [List.getElem?_eq_getElem h]
  rfl

/-- Out-of-range LUT lookup falls back to 0. -/
theorem lutLookup_ge (lut : List Nat) (v : Nat) (h : lut.length ≤ v) :
    lutLookup lut v = 0 := by
  unfold lutLookup
  rw [List.getElem?_eq_none h]
  rfl

/-- `lutLookup` is exactly the spec's branch: the entry when the index is
valid, else 0. -/
theorem lutLookup_dite (lut : List Nat) (v : Nat) :
    lutLookup lut v = if h : v < lut.length then lut.get ⟨v, h⟩ else 0 := by
  by_cases h : v < lut.length
  · rw [lutLookup_lt lut v h, dif_pos h]
    rfl
  · rw [lutLookup_ge lut v (by omega), dif_neg h]

/-- Lookup in an empty LUT always falls back to 0. -/
theorem lutLookup_nil (v : Nat) : lutLookup [] v = 0 :=
  lutLookup_ge [] v (by simp)

/-- A full `channels == 1` pass over `pc` pixels with adequate buffers:
succeeds, keeps the length, writes `monoByte` on the first `4*pc` positions
and nothing else. -/
theorem mono_call_ok (data lut output : List Nat) (pc : Nat)
    (hd : pc ≤ data.length) (ho : 4 * pc ≤ output.length) :
    ∃ out', runPixels (monoPixel data lut) 0 pc output = .ok out' ∧
      out'.length = output.length ∧
      (∀ j : Nat, j < 4 * pc → out'[j]? = some (monoByte data lut j)) ∧
      (∀ j : Nat, 4 * pc ≤ j → out'[j]? = output[j]?) := by
  obtain ⟨out', e, len, spec⟩ :=
    runPixels_ok_spec (monoPixel data lut) (fun k => k < data.length)
      (monoByte data lut)
      (fun i o hP hl => monoPixel_ok_spec data lut i o hP hl)
      pc 0 output (fun k _ hk => by omega) (by omega)
  refine ⟨out', e, len, fun j hj => ?_, fun j hj => ?_⟩
  · rw [spec j, if_pos (by omega)]
  · rw [spec j, if_neg (by omega)]

/-- A full `channels == 3` pass over `pc` pixels with adequate buffers:
succeeds, keeps the length, writes `rgbByte` on the first `4*pc` positions
and nothing else. -/
theorem rgb_call_ok (data lut output : List Nat) (pc : Nat)
    (hd : pc * 3 ≤ data.length) (ho : 4 * pc ≤ output.length) :
    ∃ out', runPixels (rgbPixel data lut) 0 pc output = .ok out' ∧
      out'.length = output.length ∧
      (∀ j : Nat, j < 4 * pc → out'[j]? = some (rgbByte data lut j)) ∧
      (∀ j : Nat, 4 * pc ≤ j → out'[j]? = output[j]?) := by
  obtain ⟨out', e, len, spec⟩ :=
    runPixels_ok_spec (rgbPixel data lut) (fun k => k * 3 + 2 < data.length)
      (rgbByte data lut)
      (fun i o hP hl => rgbPixel_ok_spec data lut i o hP hl)
      pc 0 output (fun k _ hk => by omega) (by omega)
  refine ⟨out', e, len, fun j hj => ?_, fun j hj => ?_⟩
  · rw [spec j, if_pos (by omega)]
  · rw [spec j, if_neg (by omega)]

/-- A `channels == 1` pass with enough input but a short output buffer traps,
having first overwritten every existing output position with `monoByte`. -/
theorem mono_call_err (data lut output : List Nat) (pc : Nat)
    (hd : pc ≤ data.length) (ho : output.length < 4 * pc) :
    ∃ st, runPixels (monoPixel data lut) 0 pc output = .error st ∧
      st.length = output.length ∧
      ∀ j : Nat, j < output.length → st[j]? = some (monoByte data lut j) := by
  obtain ⟨st, e, len, spec⟩ :=
    runPixels_err_spec (monoPixel data lut) (fun k => k < data.length)
      (monoByte data lut)
      (fun i o hP hl => monoPixel_ok_spec data lut i o hP hl)
      (fun i o hP hl1 hl2 => monoPixel_err_spec data lut i o hP hl1 hl2)
      pc 0 output (fun k _ hk => by omega) (by omega) (by omega)
  refine ⟨st, e, len, fun j hj => ?_⟩
  rw [spec j, if_pos (by omega)]

/-- A `channels == 3` pass with enough input but a short output buffer traps,
having first overwritten every existing output position with `rgbByte`. -/
theorem rgb_call_err (data lut output : List Nat) (pc : Nat)
    (hd : pc * 3 ≤ data.length) (ho : output.length < 4 * pc) :
    ∃ st, runPixels (rgbPixel data lut) 0 pc output = .error st ∧
      st.length = output.length ∧
      ∀ j : Nat, j < output.length → st[j]? = some (rgbByte data lut j) := by
  obtain ⟨st, e, len, spec⟩ :=
    runPixels_err_spec (rgbPixel data lut) (fun k => k * 3 + 2 < data.length)
      (rgbByte data lut)
      (fun i o hP hl => rgbPixel_ok_spec data lut i o hP hl)
      (fun i o hP hl1 hl2 => rgbPixel_err_spec data lut i o hP hl1 hl2)
      pc 0 output (fun k _ hk => by omega) (by omega) (by omega)
  refine ⟨st, e, len, fun j hj => ?_⟩
  rw [spec j, if_pos (by omega)]

/-- C1: for every one of the three converters called with `channels == 1`
and buffers satisfying the preconditions, every pixel `idx` gets
`LUT[input[idx]]` (0 when `input[idx]` is not a valid LUT index) in its
R, G and B output bytes, and 255 in its alpha byte. -/
theorem mono_pixels_lut_mapped :
    ∀ g, (g = generate_display_image_u8 ∨ g = generate_display_image_u16 ∨
      g = generate_display_image_u32) →
    ∀ (data : List Nat) (width height : Nat) (lut output : List Nat),
      width * height * 1 ≤ data.length → width * height * 4 ≤ output.length →
      ∃ out', g data width height lut 1 output = .ok out' ∧
        ∀ idx : Nat, idx < width * height → ∀ v : Nat, data[idx]? = some v →
          out'[idx * 4]? = some (if h : v < lut.length then lut.get ⟨v, h⟩ else 0) ∧
          out'[idx * 4 + 1]? = some (if h : v < lut.length then lut.get ⟨v, h⟩ else 0) ∧
          out'[idx * 4 + 2]? = some (if h : v < lut.length then lut.get ⟨v, h⟩ else 0) ∧
          out'[idx * 4 + 3]? = some 255 := by
  intro g hg data width height lut output hd ho
  suffices h8 : ∃ out',
      generate_display_image_u8 data width height lut 1 output = .ok out' ∧
      ∀ idx : Nat, idx < width * height → ∀ v : Nat, data[idx]? = some v →
        out'[idx * 4]? = some (if h : v < lut.length then lut.get ⟨v, h⟩ else 0) ∧
        out'[idx * 4 + 1]? = some (if h : v < lut.length then lut.get ⟨v, h⟩ else 0) ∧
        out'[idx * 4 + 2]? = some (if h : v < lut.length then lut.get ⟨v, h⟩ else 0) ∧
        out'[idx * 4 + 3]? = some 255 by
    rcases hg with rfl | rfl | rfl <;> exact h8
  obtain ⟨out', eo, _, hin, _⟩ :=
    mono_call_ok data lut output (width * height) (by omega) (by omega)
  refine ⟨out', eo, ?_⟩
  intro idx hidx v hv
  have hlt : idx < data.length := by omega
  have hvv : data[idx] = v := by
    rw [List.getElem?_eq_getElem hlt] at hv
    exact Option.some_inj.mp hv
  have hmb : ∀ m : Nat, m < 3 → monoByte data lut (idx * 4 + m) = lutLookup lut v := by
    intro m hm
    have e := monoByte_color data lut idx m hm hlt
    rw [hvv] at e
    exact e
  refine ⟨?_, ?_, ?_, ?_⟩
  · rw [hin (idx * 4) (by omega),
      show monoByte data lut (idx * 4) = lutLookup lut v from hmb 0 (by omega),
      lutLookup_dite]
  · rw [hin (idx * 4 + 1) (by omega), hmb 1 (by omega), lutLookup_dite]
  · rw [hin (idx * 4 + 2) (by omega), hmb 2 (by omega), lutLookup_dite]
  · rw [hin (idx * 4 + 3) (by omega), monoByte_alpha]

/-- Witness for C1: the spec's first example, on the u8 converter. -/
theorem mono_pixels_lut_mapped_witness :
    (1 * 1 * 1 ≤ ([5] : List Nat).length ∧
      1 * 1 * 4 ≤ ([0, 0, 0, 0] : List Nat).length) ∧
    (∃ out', generate_display_image_u8 [5] 1 1 [0, 10, 20, 30, 40, 50, 60] 1
        [0, 0, 0, 0] = .ok out' ∧
      ∀ idx : Nat, idx < 1 * 1 → ∀ v : Nat, ([5] : List Nat)[idx]? = some v →
        out'[idx * 4]? =
          some (if h : v < ([0, 10, 20, 30, 40, 50, 60] : List Nat).length then
            ([0, 10, 20, 30, 40, 50, 60] : List Nat).get ⟨v, h⟩ else 0) ∧
        out'[idx * 4 + 1]? =
          some (if h : v < ([0, 10, 20, 30, 40, 50, 60] : List Nat).length then
            ([0, 10, 20, 30, 40, 50, 60] : List Nat).get ⟨v, h⟩ else 0) ∧
        out'[idx * 4 + 2]? =
          some (if h : v < ([0, 10, 20, 30, 40, 50, 60] : List Nat).length then
            ([0, 10, 20, 30, 40, 50, 60] : List Nat).get ⟨v, h⟩ else 0) ∧
        out'[idx * 4 + 3]? = some 255) :=
  ⟨⟨by decide, by decide⟩,
    mono_pixels_lut_mapped generate_display_image_u8 (Or.inl rfl)
      [5] 1 1 [0, 10, 20, 30, 40, 50, 60] [0, 0, 0, 0] (by decide) (by decide)⟩

/-- C2: for every one of the three converters called with `channels == 3`
and buffers satisfying the preconditions, the three samples of every pixel
`idx` are independently mapped through the LUT-lookup-with-fallback and
written to output positions `idx*4 .. idx*4+2`, with 255 at `idx*4+3`. -/
theorem rgb_pixels_lut_mapped :
    ∀ g, (g = generate_display_image_u8 ∨ g = generate_display_image_u16 ∨
      g = generate_display_image_u32) →
    ∀ (data : List Nat) (width height : Nat) (lut output : List Nat),
      width * height * 3 ≤ data.length → width * height * 4 ≤ output.length →
      ∃ out', g data width height lut 3 output = .ok out' ∧
        ∀ idx : Nat, idx < width * height →
          ∀ r gv b : Nat, data[idx * 3]? = some r → data[idx * 3 + 1]? = some gv →
            data[idx * 3 + 2]? = some b →
          out'[idx * 4]? = some (if h : r < lut.length then lut.get ⟨r, h⟩ else 0) ∧
          out'[idx * 4 + 1]? = some (if h : gv < lut.length then lut.get ⟨gv, h⟩ else 0) ∧
          out'[idx * 4 + 2]? = some (if h : b < lut.length then lut.get ⟨b, h⟩ else 0) ∧
          out'[idx * 4 + 3]? = some 255 := by
  intro g hg data width height lut output hd ho
  suffices h8 : ∃ out',
      generate_display_image_u8 data width height lut 3 output = .ok out' ∧
      ∀ idx : Nat, idx < width * height →
        ∀ r gv b : Nat, data[idx * 3]? = some r → data[idx * 3 + 1]? = some gv →
          data[idx * 3 + 2]? = some b →
        out'[idx * 4]? = some (if h : r < lut.length then lut.get ⟨r, h⟩ else 0) ∧
        out'[idx * 4 + 1]? = some (if h : gv < lut.length then lut.get ⟨gv, h⟩ else 0) ∧
        out'[idx * 4 + 2]? = some (if h : b < lut.length then lut.get ⟨b, h⟩ else 0) ∧
        out'[idx * 4 + 3]? = some 255 by
    rcases hg with rfl | rfl | rfl <;> exact h8
  obtain ⟨out', eo, _, hin, _⟩ :=
    rgb_call_ok data lut output (width * height) (by omega) (by omega)
  refine ⟨out', eo, ?_⟩
  intro idx hidx r gv b hr hg2 hb
  have hlt0 : idx * 3 < data.length := by omega
  have hlt1 : idx * 3 + 1 < data.length := by omega
  have hlt2 : idx * 3 + 2 < data.length := by omega
  have hr' : data[idx * 3] = r := by
    rw [List.getElem?_eq_getElem hlt0] at hr
    exact Option.some_inj.mp hr
  have hg' : data[idx * 3 + 1] = gv := by
    rw [List.getElem?_eq_getElem hlt1] at hg2
    exact Option.some_inj.mp hg2
  have hb' : data[idx * 3 + 2] = b := by
    rw [List.getElem?_eq_getElem hlt2] at hb
    exact Option.some_inj.mp hb
  refine ⟨?_, ?_, ?_, ?_⟩
  · have e := rgbByte_color data lut idx 0 (by omega) (by omega)
    rw [show data[idx * 3 + 0] = r from hr'] at e
    rw [hin (idx * 4) (by omega),
      show rgbByte data lut (idx * 4) = lutLookup lut r from e, lutLookup_dite]
  · have e := rgbByte_color data lut idx 1 (by omega) (by omega)
    rw [hg'] at e
    rw [hin (idx * 4 + 1) (by omega), e, lutLookup_dite]
  · have e := rgbByte_color data lut idx 2 (by omega) (by omega)
    rw [hb'] at e
    rw [hin (idx * 4 + 2) (by omega), e, lutLookup_dite]
  · rw [hin (idx * 4 + 3) (by omega), rgbByte_alpha]

/-- Witness for C2: the spec's third example, on the u32 converter. -/
theorem rgb_pixels_lut_mapped_witness :
    (1 * 1 * 3 ≤ ([1, 2, 3] : List Nat).length ∧
      1 * 1 * 4 ≤ ([0, 0, 0, 0] : List Nat).length) ∧
    (∃ out', generate_display_image_u32 [1, 2, 3] 1 1 [0, 10, 20, 30] 3
        [0, 0, 0, 0] = .ok out' ∧
      ∀ idx : Nat, idx < 1 * 1 →
        ∀ r gv b : Nat, ([1, 2, 3] : List Nat)[idx * 3]? = some r →
          ([1, 2, 3] : List Nat)[idx * 3 + 1]? = some gv →
          ([1, 2, 3] : List Nat)[idx * 3 + 2]? = some b →
        out'[idx * 4]? =
          some (if h : r < ([0, 10, 20, 30] : List Nat).length then
            ([0, 10, 20, 30] : List Nat).get ⟨r, h⟩ else 0) ∧
        out'[idx * 4 + 1]? =
          some (if h : gv < ([0, 10, 20, 30] : List Nat).length then
            ([0, 10, 20, 30] : List Nat).get ⟨gv, h⟩ else 0) ∧
        out'[idx * 4 + 2]? =
          some (if h : b < ([0, 10, 20, 30] : List Nat).length then
            ([0, 10, 20, 30] : List Nat).get ⟨b, h⟩ else 0) ∧
        out'[idx * 4 + 3]? = some 255) :=
  ⟨⟨by decide, by decide⟩,
    rgb_pixels_lut_mapped generate_display_image_u32 (Or.inr (Or.inr rfl))
      [1, 2, 3] 1 1 [0, 10, 20, 30] [0, 0, 0, 0] (by decide) (by decide)⟩

/-- C3: for every converter and both supported channel counts, a sample
`v` with `v ≥ len(LUT)` yields output byte 0 for the corresponding channel,
and the call still completes (an out-of-range LUT index is not a failure). -/
theorem lut_out_of_range_fallback :
    ∀ g, (g = generate_display_image_u8 ∨ g = generate_display_image_u16 ∨
      g = generate_display_image_u32) →
    ∀ (data : List Nat) (width height : Nat) (lut output : List Nat),
      width * height * 4 ≤ output.length →
      (width * height * 1 ≤ data.length →
        ∀ idx : Nat, idx < width * height → ∀ v : Nat, data[idx]? = some v →
          lut.length ≤ v →
          ∃ out', g data width height lut 1 output = .ok out' ∧
            out'[idx * 4]? = some 0 ∧ out'[idx * 4 + 1]? = some 0 ∧
            out'[idx * 4 + 2]? = some 0) ∧
      (width * height * 3 ≤ data.length →
        ∀ idx : Nat, idx < width * height → ∀ m : Nat, m < 3 → ∀ v : Nat,
          data[idx * 3 + m]? = some v → lut.length ≤ v →
          ∃ out', g data width height lut 3 output = .ok out' ∧
            out'[idx * 4 + m]? = some 0) := by
  intro g hg data width height lut output ho
  suffices h8 :
      (width * height * 1 ≤ data.length →
        ∀ idx : Nat, idx < width * height → ∀ v : Nat, data[idx]? = some v →
          lut.length ≤ v →
          ∃ out', generate_display_image_u8 data width height lut 1 output = .ok out' ∧
            out'[idx * 4]? = some 0 ∧ out'[idx * 4 + 1]? = some 0 ∧
            out'[idx * 4 + 2]? = some 0) ∧
      (width * height * 3 ≤ data.length →
        ∀ idx : Nat, idx < width * height → ∀ m : Nat, m < 3 → ∀ v : Nat,
          data[idx * 3 + m]? = some v → lut.length ≤ v →
          ∃ out', generate_display_image_u8 data width height lut 3 output = .ok out' ∧
            out'[idx * 4 + m]? = some 0) by
    rcases hg with rfl | rfl | rfl <;> exact h8
  constructor
  · intro hd idx hidx v hv hge
    obtain ⟨out', eo, _, hin, _⟩ :=
      mono_call_ok data lut output (width * height) (by omega) (by omega)
    have hlt : idx < data.length := by omega
    have hvv : data[idx] = v := by
      rw [List.getElem?_eq_getElem hlt] at hv
      exact Option.some_inj.mp hv
    have hmb : ∀ m : Nat, m < 3 → monoByte data lut (idx * 4 + m) = 0 := by
      intro m hm
      have e := monoByte_color data lut idx m hm hlt
      rw [hvv, lutLookup_ge lut v hge] at e
      exact e
    refine ⟨out', eo, ?_, ?_, ?_⟩
    · rw [hin (idx * 4) (by omega),
        show monoByte data lut (idx * 4) = 0 from hmb 0 (by omega)]
    · rw [hin (idx * 4 + 1) (by omega), hmb 1 (by omega)]
    · rw [hin (idx * 4 + 2) (by omega), hmb 2 (by omega)]
  · intro hd idx hidx m hm v hv hge
    obtain ⟨out', eo, _, hin, _⟩ :=
      rgb_call_ok data lut output (width * height) (by omega) (by omega)
    have hlt : idx * 3 + m < data.length := by omega
    have hvv : data[idx * 3 + m] = v := by
      rw [List.getElem?_eq_getElem hlt] at hv
      exact Option.some_inj.mp hv
    have e := rgbByte_color data lut idx m hm hlt
    rw [hvv, lutLookup_ge lut v hge] at e
    exact ⟨out', eo, by rw [hin (idx * 4 + m) (by omega), e]⟩

/-- Witness for C3: a 16-bit-style sample 300 against a 3-entry LUT. -/
theorem lut_out_of_range_fallback_witness :
    (1 * 1 * 4 ≤ ([7, 7, 7, 7] : List Nat).length ∧
      1 * 1 * 1 ≤ ([300] : List Nat).length ∧
      ([1, 2, 9] : List Nat).length ≤ 300) ∧
    (∃ out', generate_display_image_u16 [300] 1 1 [1, 2, 9] 1 [7, 7, 7, 7]
        = .ok out' ∧
      out'[0 * 4]? = some 0 ∧ out'[0 * 4 + 1]? = some 0 ∧
      out'[0 * 4 + 2]? = some 0) :=
  ⟨⟨by decide, by decide, by decide⟩,
    (lut_out_of_range_fallback generate_display_image_u16 (Or.inr (Or.inl rfl))
      [300] 1 1 [1, 2, 9] [7, 7, 7, 7] (by decide)).1 (by decide) 0 (by decide)
      300 (by decide) (by decide)⟩

/-- C4: for any channel count other than 1 and 3, every converter performs
no writes: the call returns the output buffer exactly as supplied, for any
input, LUT and geometry. -/
theorem unsupported_channels_noop :
    ∀ g, (g = generate_display_image_u8 ∨ g = generate_display_image_u16 ∨
      g = generate_display_image_u32) →
    ∀ (data : List Nat) (width height : Nat) (lut : List Nat) (channels : Nat)
      (output : List Nat), channels ≠ 1 → channels ≠ 3 →
      g data width height lut channels output = .ok output := by
  intro g hg data width height lut channels output hc1 hc3
  suffices h8 : generate_display_image_u8 data width height lut channels output
      = .ok output by
    rcases hg with rfl | rfl | rfl <;> exact h8
  simp [generate_display_image_u8, hc1, hc3]

/-- Witness for C4: the spec's fifth example (`channels = 7`). -/
theorem unsupported_channels_noop_witness :
    ((7 : Nat) ≠ 1 ∧ (7 : Nat) ≠ 3) ∧
    generate_display_image_u32 [1, 2] 2 1 [3] 7 [9, 9, 9, 9, 9, 9, 9, 9]
      = .ok [9, 9, 9, 9, 9, 9, 9, 9] :=
  ⟨⟨by decide, by decide⟩,
    unsupported_channels_noop generate_display_image_u32 (Or.inr (Or.inr rfl))
      [1, 2] 2 1 [3] 7 [9, 9, 9, 9, 9, 9, 9, 9] (by decide) (by decide)⟩

/-- C5: for both supported channel counts, with buffers satisfying the
preconditions, the alpha byte of every pixel is 255 after the call. -/
theorem alpha_byte_is_255 :
    ∀ g, (g = generate_display_image_u8 ∨ g = generate_display_image_u16 ∨
      g = generate_display_image_u32) →
    ∀ (data : List Nat) (width height : Nat) (lut output : List Nat),
      width * height * 4 ≤ output.length →
      (width * height * 1 ≤ data.length →
        ∃ out', g data width height lut 1 output = .ok out' ∧
          ∀ idx : Nat, idx < width * height → out'[idx * 4 + 3]? = some 255) ∧
      (width * height * 3 ≤ data.length →
        ∃ out', g data width height lut 3 output = .ok out' ∧
          ∀ idx : Nat, idx < width * height → out'[idx * 4 + 3]? = some 255) := by
  intro g hg data width height lut output ho
  suffices h8 :
      (width * height * 1 ≤ data.length →
        ∃ out', generate_display_image_u8 data width height lut 1 output = .ok out' ∧
          ∀ idx : Nat, idx < width * height → out'[idx * 4 + 3]? = some 255) ∧
      (width * height * 3 ≤ data.length →
        ∃ out', generate_display_image_u8 data width height lut 3 output = .ok out' ∧
          ∀ idx : Nat, idx < width * height → out'[idx * 4 + 3]? = some 255) by
    rcases hg with rfl | rfl | rfl <;> exact h8
  constructor
  · intro hd
    obtain ⟨out', eo, _, hin, _⟩ :=
      mono_call_ok data lut output (width * height) (by omega) (by omega)
    exact ⟨out', eo, fun idx hidx => by
      rw [hin (idx * 4 + 3) (by omega), monoByte_alpha]⟩
  · intro hd
    obtain ⟨out', eo, _, hin, _⟩ :=
      rgb_call_ok data lut output (width * height) (by omega) (by omega)
    exact ⟨out', eo, fun idx hidx => by
      rw [hin (idx * 4 + 3) (by omega), rgbByte_alpha]⟩

/-- Witness for C5: a 2-pixel mono image. -/
theorem alpha_byte_is_255_witness :
    (2 * 1 * 4 ≤ ([0, 0, 0, 0, 0, 0, 0, 0] : List Nat).length ∧
      2 * 1 * 1 ≤ ([0, 1] : List Nat).length) ∧
    (∃ out', generate_display_image_u8 [0, 1] 2 1 [100, 200] 1
        [0, 0, 0, 0, 0, 0, 0, 0] = .ok out' ∧
      ∀ idx : Nat, idx < 2 * 1 → out'[idx * 4 + 3]? = some 255) :=
  ⟨⟨by decide, by decide⟩,
    (alpha_byte_is_255 generate_display_image_u8 (Or.inl rfl)
      [0, 1] 2 1 [100, 200] [0, 0, 0, 0, 0, 0, 0, 0] (by decide)).1 (by decide)⟩

/-- C6: with `channels` in {1, 3} and an output buffer of length at least
`width*height*4`, no byte at a position at or beyond `width*height*4` is
changed by the call (whether it completes or traps), and the buffer length
is preserved. -/
theorem no_bytes_touched_beyond_range :
    ∀ g, (g = generate_display_image_u8 ∨ g = generate_display_image_u16 ∨
      g = generate_display_image_u32) →
    ∀ (data : List Nat) (width height : Nat) (lut : List Nat) (channels : Nat)
      (output : List Nat), (channels = 1 ∨ channels = 3) →
      width * height * 4 ≤ output.length →
      (outBuf (g data width height lut channels output)).length = output.length ∧
      ∀ j : Nat, width * height * 4 ≤ j →
        (outBuf (g data width height lut channels output))[j]? = output[j]? := by
  intro g hg data width height lut channels output hc ho
  suffices h8 :
      (outBuf (generate_display_image_u8 data width height lut channels
        output)).length = output.length ∧
      ∀ j : Nat, width * height * 4 ≤ j →
        (outBuf (generate_display_image_u8 data width height lut channels
          output))[j]? = output[j]? by
    rcases hg with rfl | rfl | rfl <;> exact h8
  rcases hc with rfl | rfl
  · have e : generate_display_image_u8 data width height lut 1 output =
        runPixels (monoPixel data lut) 0 (width * height) output := rfl
    rw [e]
    obtain ⟨hlen, hframe⟩ :=
      runPixels_frame (monoPixel data lut)
        (fun i o => monoPixel_frame data lut i o) (width * height) 0 output
    exact ⟨hlen, fun j hj => hframe j (Or.inr (by omega))⟩
  · have e : generate_display_image_u8 data width height lut 3 output =
        runPixels (rgbPixel data lut) 0 (width * height) output := rfl
    rw [e]
    obtain ⟨hlen, hframe⟩ :=
      runPixels_frame (rgbPixel data lut)
        (fun i o => rgbPixel_frame data lut i o) (width * height) 0 output
    exact ⟨hlen, fun j hj => hframe j (Or.inr (by omega))⟩

/-- Witness for C6: a 1-pixel mono call with one spare output byte; even a
call that traps on empty input leaves the spare byte alone. -/
theorem no_bytes_touched_beyond_range_witness :
    (((1 : Nat) = 1 ∨ (1 : Nat) = 3) ∧
      1 * 1 * 4 ≤ ([9, 9, 9, 9, 8] : List Nat).length) ∧
    ((outBuf (generate_display_image_u8 [] 1 1 [5] 1 [9, 9, 9, 9, 8])).length
        = ([9, 9, 9, 9, 8] : List Nat).length ∧
      ∀ j : Nat, 1 * 1 * 4 ≤ j →
        (outBuf (generate_display_image_u8 [] 1 1 [5] 1 [9, 9, 9, 9, 8]))[j]? =
          ([9, 9, 9, 9, 8] : List Nat)[j]?) :=
  ⟨⟨Or.inl rfl, by decide⟩,
    no_bytes_touched_beyond_range generate_display_image_u8 (Or.inl rfl)
      [] 1 1 [5] 1 [9, 9, 9, 9, 8] (Or.inl rfl) (by decide)⟩

/-- C7: the three converters implement the same algorithm; on any input
whose samples fit in 8 bits (so it is a valid input for all three variants),
they produce identical results for the same geometry, LUT, channel count and
initial output buffer. -/
theorem converters_same_algorithm :
    ∀ (data : List Nat) (width height : Nat) (lut : List Nat) (channels : Nat)
      (output : List Nat), (∀ v ∈ data, v < 2 ^ 8) →
      generate_display_image_u8 data width height lut channels output =
        generate_display_image_u16 data width height lut channels output ∧
      generate_display_image_u16 data width height lut channels output =
        generate_display_image_u32 data width height lut channels output :=
  fun _ _ _ _ _ _ _ => ⟨rfl, rfl⟩

/-- Witness for C7: the three variants agree on a concrete 8-bit image. -/
theorem converters_same_algorithm_witness :
    (∀ v ∈ ([5] : List Nat), v < 2 ^ 8) ∧
    (generate_display_image_u8 [5] 1 1 [0, 10, 20, 30, 40, 50, 60] 1 [0, 0, 0, 0] =
        generate_display_image_u16 [5] 1 1 [0, 10, 20, 30, 40, 50, 60] 1 [0, 0, 0, 0] ∧
      generate_display_image_u16 [5] 1 1 [0, 10, 20, 30, 40, 50, 60] 1 [0, 0, 0, 0] =
        generate_display_image_u32 [5] 1 1 [0, 10, 20, 30, 40, 50, 60] 1 [0, 0, 0, 0]) :=
  ⟨by decide,
    converters_same_algorithm [5] 1 1 [0, 10, 20, 30, 40, 50, 60] 1 [0, 0, 0, 0]
      (by decide)⟩

/-- C8: under the preconditions (input holds at least
`width*height*channels` elements, output at least `width*height*4` bytes) no
access is out of bounds: every call completes normally. -/
theorem preconditions_rule_out_oob :
    ∀ g, (g = generate_display_image_u8 ∨ g = generate_display_image_u16 ∨
      g = generate_display_image_u32) →
    ∀ (data : List Nat) (width height : Nat) (lut : List Nat) (channels : Nat)
      (output : List Nat),
      width * height * channels ≤ data.length →
      width * height * 4 ≤ output.length →
      ∃ out', g data width height lut channels output = .ok out' := by
  intro g hg data width height lut channels output hd ho
  suffices h8 : ∃ out',
      generate_display_image_u8 data width height lut channels output
        = .ok out' by
    rcases hg with rfl | rfl | rfl <;> exact h8
  by_cases hc1 : channels = 1
  · subst hc1
    have e : generate_display_image_u8 data width height lut 1 output =
        runPixels (monoPixel data lut) 0 (width * height) output := rfl
    obtain ⟨out', eo, _, _, _⟩ :=
      mono_call_ok data lut output (width * height) (by omega) (by omega)
    exact ⟨out', by rw [e, eo]⟩
  · by_cases hc3 : channels = 3
    · subst hc3
      have e : generate_display_image_u8 data width height lut 3 output =
          runPixels (rgbPixel data lut) 0 (width * height) output := rfl
      obtain ⟨out', eo, _, _, _⟩ :=
        rgb_call_ok data lut output (width * height) (by omega) (by omega)
      exact ⟨out', by rw [e, eo]⟩
    · exact ⟨output, by simp [generate_display_image_u8, hc1, hc3]⟩

/-- Witness for C8: the spec's RGB example on the u16 converter. -/
theorem preconditions_rule_out_oob_witness :
    (1 * 1 * 3 ≤ ([1, 2, 3] : List Nat).length ∧
      1 * 1 * 4 ≤ ([0, 0, 0, 0] : List Nat).length) ∧
    (∃ out', generate_display_image_u16 [1, 2, 3] 1 1 [0, 10, 20, 30] 3
        [0, 0, 0, 0] = .ok out') :=
  ⟨⟨by decide, by decide⟩,
    preconditions_rule_out_oob generate_display_image_u16 (Or.inr (Or.inl rfl))
      [1, 2, 3] 1 1 [0, 10, 20, 30] 3 [0, 0, 0, 0] (by decide) (by decide)⟩

/-- C9 is false as stated: a failing call can leave the output buffer
partially overwritten.  Here a 1-pixel mono call with a 2-byte output buffer
traps on the third write, after the R and G bytes of pixel 0 were already
overwritten: the observable buffer changed from `[9, 9]` to `[7, 7]`, a
partially written pixel. -/
theorem failed_call_corrupts_buffer :
    generate_display_image_u8 [0] 1 1 [7] 1 [9, 9] = .error [7, 7] ∧
    ([7, 7] : List Nat) ≠ [9, 9] :=
  ⟨rfl, by decide⟩

/-- C9 (amended): a call with sufficient input but an output buffer shorter
than `width*height*4` does not run to completion; it traps at the first
out-of-bounds output write, and at that point every existing output byte has
already been overwritten with the byte a successful call would produce there
— the failed call can therefore leave partially written pixels, not an
unmodified buffer. -/
theorem trap_at_first_oob_write :
    ∀ g, (g = generate_display_image_u8 ∨ g = generate_display_image_u16 ∨
      g = generate_display_image_u32) →
    ∀ (data : List Nat) (width height : Nat) (lut output : List Nat),
      (width * height * 1 ≤ data.length → output.length < width * height * 4 →
        ∃ st, g data width height lut 1 output = .error st ∧
          st.length = output.length ∧
          ∀ j : Nat, j < output.length → st[j]? = some (monoByte data lut j)) ∧
      (width * height * 3 ≤ data.length → output.length < width * height * 4 →
        ∃ st, g data width height lut 3 output = .error st ∧
          st.length = output.length ∧
          ∀ j : Nat, j < output.length → st[j]? = some (rgbByte data lut j)) := by
  intro g hg data width height lut output
  suffices h8 :
      (width * height * 1 ≤ data.length → output.length < width * height * 4 →
        ∃ st, generate_display_image_u8 data width height lut 1 output = .error st ∧
          st.length = output.length ∧
          ∀ j : Nat, j < output.length → st[j]? = some (monoByte data lut j)) ∧
      (width * height * 3 ≤ data.length → output.length < width * height * 4 →
        ∃ st, generate_display_image_u8 data width height lut 3 output = .error st ∧
          st.length = output.length ∧
          ∀ j : Nat, j < output.length → st[j]? = some (rgbByte data lut j)) by
    rcases hg with rfl | rfl | rfl <;> exact h8
  constructor
  · intro hd ho
    have e : generate_display_image_u8 data width height lut 1 output =
        runPixels (monoPixel data lut) 0 (width * height) output := rfl
    obtain ⟨st, eo, len, spec⟩ :=
      mono_call_err data lut output (width * height) (by omega) (by omega)
    exact ⟨st, by rw [e, eo], len, spec⟩
  · intro hd ho
    have e : generate_display_image_u8 data width height lut 3 output =
        runPixels (rgbPixel data lut) 0 (width * height) output := rfl
    obtain ⟨st, eo, len, spec⟩ :=
      rgb_call_err data lut output (width * height) (by omega) (by omega)
    exact ⟨st, by rw [e, eo], len, spec⟩

/-- Witness for the amended C9: the counterexample call, fully characterized. -/
theorem trap_at_first_oob_write_witness :
    (1 * 1 * 1 ≤ ([0] : List Nat).length ∧
      ([9, 9] : List Nat).length < 1 * 1 * 4) ∧
    (∃ st, generate_display_image_u8 [0] 1 1 [7] 1 [9, 9] = .error st ∧
      st.length = ([9, 9] : List Nat).length ∧
      ∀ j : Nat, j < ([9, 9] : List Nat).length →
        st[j]? = some (monoByte [0] [7] j)) :=
  ⟨⟨by decide, by decide⟩,
    (trap_at_first_oob_write generate_display_image_u8 (Or.inl rfl)
      [0] 1 1 [7] [9, 9]).1 (by decide) (by decide)⟩

/-- C10: with an empty LUT, both supported channel modes write the opaque
black quadruplet `(0, 0, 0, 255)` for every pixel, whatever the samples. -/
theorem empty_lut_gives_black :
    ∀ g, (g = generate_display_image_u8 ∨ g = generate_display_image_u16 ∨
      g = generate_display_image_u32) →
    ∀ (data : List Nat) (width height : Nat) (output : List Nat),
      width * height * 4 ≤ output.length →
      (width * height * 1 ≤ data.length →
        ∃ out', g data width height [] 1 output = .ok out' ∧
          ∀ idx : Nat, idx < width * height →
            out'[idx * 4]? = some 0 ∧ out'[idx * 4 + 1]? = some 0 ∧
            out'[idx * 4 + 2]? = some 0 ∧ out'[idx * 4 + 3]? = some 255) ∧
      (width * height * 3 ≤ data.length →
        ∃ out', g data width height [] 3 output = .ok out' ∧
          ∀ idx : Nat, idx < width * height →
            out'[idx * 4]? = some 0 ∧ out'[idx * 4 + 1]? = some 0 ∧
            out'[idx * 4 + 2]? = some 0 ∧ out'[idx * 4 + 3]? = some 255) := by
  intro g hg data width height output ho
  suffices h8 :
      (width * height * 1 ≤ data.length →
        ∃ out', generate_display_image_u8 data width height [] 1 output = .ok out' ∧
          ∀ idx : Nat, idx < width * height →
            out'[idx * 4]? = some 0 ∧ out'[idx * 4 + 1]? = some 0 ∧
            out'[idx * 4 + 2]? = some 0 ∧ out'[idx * 4 + 3]? = some 255) ∧
      (width * height * 3 ≤ data.length →
        ∃ out', generate_display_image_u8 data width height [] 3 output = .ok out' ∧
          ∀ idx : Nat, idx < width * height →
            out'[idx * 4]? = some 0 ∧ out'[idx * 4 + 1]? = some 0 ∧
            out'[idx * 4 + 2]? = some 0 ∧ out'[idx * 4 + 3]? = some 255) by
    rcases hg with rfl | rfl | rfl <;> exact h8
  constructor
  · intro hd
    obtain ⟨out', eo, _, hin, _⟩ :=
      mono_call_ok data [] output (width * height) (by omega) (by omega)
    refine ⟨out', eo, fun idx hidx => ?_⟩
    have hlt : idx < data.length := by omega
    have hmb : ∀ m : Nat, m < 3 → monoByte data [] (idx * 4 + m) = 0 := by
      intro m hm
      have e := monoByte_color data [] idx m hm hlt
      rw [lutLookup_nil] at e
      exact e
    refine ⟨?_, ?_, ?_, ?_⟩
    · rw [hin (idx * 4) (by omega),
        show monoByte data [] (idx * 4) = 0 from hmb 0 (by omega)]
    · rw [hin (idx * 4 + 1) (by omega), hmb 1 (by omega)]
    · rw [hin (idx * 4 + 2) (by omega), hmb 2 (by omega)]
    · rw [hin (idx * 4 + 3) (by omega), monoByte_alpha]
  · intro hd
    obtain ⟨out', eo, _, hin, _⟩ :=
      rgb_call_ok data [] output (width * height) (by omega) (by omega)
    refine ⟨out', eo, fun idx hidx => ?_⟩
    have hmb : ∀ m : Nat, m < 3 → rgbByte data [] (idx * 4 + m) = 0 := by
      intro m hm
      have e := rgbByte_color data [] idx m hm (by omega)
      rw [lutLookup_nil] at e
      exact e
    refine ⟨?_, ?_, ?_, ?_⟩
    · rw [hin (idx * 4) (by omega),
        show rgbByte data [] (idx * 4) = 0 from hmb 0 (by omega)]
    · rw [hin (idx * 4 + 1) (by omega), hmb 1 (by omega)]
    · rw [hin (idx * 4 + 2) (by omega), hmb 2 (by omega)]
    · rw [hin (idx * 4 + 3) (by omega), rgbByte_alpha]

/-- Witness for C10: empty LUT on a 1-pixel mono image with sample 42. -/
theorem empty_lut_gives_black_witness :
    (1 * 1 * 4 ≤ ([9, 9, 9, 9] : List Nat).length ∧
      1 * 1 * 1 ≤ ([42] : List Nat).length) ∧
    (∃ out', generate_display_image_u8 [42] 1 1 [] 1 [9, 9, 9, 9] = .ok out' ∧
      ∀ idx : Nat, idx < 1 * 1 →
        out'[idx * 4]? = some 0 ∧ out'[idx * 4 + 1]? = some 0 ∧
        out'[idx * 4 + 2]? = some 0 ∧ out'[idx * 4 + 3]? = some 255) :=
  ⟨⟨by decide, by decide⟩,
    (empty_lut_gives_black generate_display_image_u8 (Or.inl rfl)
      [42] 1 1 [9, 9, 9, 9] (by decide)).1 (by decide)⟩
